import Mathlib

/-!
Shallow embedding of the ProdFlow 3D client-side store, reconciler,
simulator and push feed adapter (src/store/machineStore.ts via
src/api/productionApi.ts, src/hooks/useSimulation.ts,
src/types/machine.ts), with theorems settling the frozen claims.

JavaScript `number` fields are modelled as `ℚ`; `Math.random()` draws are
supplied as explicit rational oracle inputs in `[0, 1)`; generated ids
(`Date.now()`-plus-random strings) are supplied as explicit string inputs.
-/

/- Batteries makes the `Rat` field operations irreducible; restore
semireducibility locally so that concrete store computations over `ℚ` can be
settled by `decide`. -/
attribute [local semireducible] Rat.ofScientific Rat.mul Rat.add Rat.sub Rat.inv

/-- `MachineStatus` from src/types/machine.ts. -/
inductive MachineStatus where
  | active
  | idle
  | stopped
  | maintenance
deriving DecidableEq, Repr

/-- The `type` field's enumeration from src/types/machine.ts. -/
inductive MachineType where
  | conveyor
  | processor
  | packer
  | quality
deriving DecidableEq, Repr

/-- `Machine` from src/types/machine.ts. -/
structure Machine where
  id : String
  name : String
  status : MachineStatus
  throughput : ℚ
  position : ℚ × ℚ × ℚ
  type : Option MachineType
  description : Option String
deriving DecidableEq, Repr

/-- `Connection` from src/types/machine.ts. -/
structure Connection where
  id : String
  fromMachineId : String
  toMachineId : String
  flowRate : Option ℚ
deriving DecidableEq, Repr

/-- The store's state: `machines`, `connections`, `selectedMachineId`
(src/store/machineStore.ts). -/
structure StoreState where
  machines : List Machine
  connections : List Connection
  selectedMachineId : Option String
deriving DecidableEq, Repr

/-- The store's creation state (`machines: [], connections: [],
selectedMachineId: null`). -/
def initialState : StoreState :=
  { machines := [], connections := [], selectedMachineId := none }

/-- `Omit<Machine, 'id'>`: the argument of `addMachine`. -/
structure MachineFields where
  name : String
  status : MachineStatus
  throughput : ℚ
  position : ℚ × ℚ × ℚ
  type : Option MachineType
  description : Option String
deriving DecidableEq, Repr

/-- `Partial<Machine>`: the argument of `updateMachine`. A `some` field is
present in the partial and overrides the machine's field on spread; `id` is
among the optional keys, exactly as in the TypeScript type. -/
structure MachinePatch where
  id : Option String := none
  name : Option String := none
  status : Option MachineStatus := none
  throughput : Option ℚ := none
  position : Option (ℚ × ℚ × ℚ) := none
  type : Option (Option MachineType) := none
  description : Option (Option String) := none
deriving DecidableEq, Repr

/-- The spread `{ ...m, ...updates }` of `updateMachine`. -/
def applyPatch (p : MachinePatch) (m : Machine) : Machine :=
  { id := p.id.getD m.id
    name := p.name.getD m.name
    status := p.status.getD m.status
    throughput := p.throughput.getD m.throughput
    position := p.position.getD m.position
    type := p.type.getD m.type
    description := p.description.getD m.description }

/-- One record of the batch passed to `batchUpdateFromProductionData`. -/
structure FeedRecord where
  id : String
  status : MachineStatus
  throughput : ℚ
deriving DecidableEq, Repr

/-- `addMachine` (machineStore.ts): appends `{ ...machine, id }` where `id`
is the generated `machine-${Date.now()}-${random}` string, here the explicit
input `genId`. -/
def addMachine (machine : MachineFields) (genId : String) (s : StoreState) : StoreState :=
  { s with machines := s.machines ++
      [{ id := genId, name := machine.name, status := machine.status,
         throughput := machine.throughput, position := machine.position,
         type := machine.type, description := machine.description }] }

/-- `updateMachine` (machineStore.ts): `m.id === id ? { ...m, ...updates } : m`. -/
def updateMachine (mid : String) (updates : MachinePatch) (s : StoreState) : StoreState :=
  { s with machines := s.machines.map (fun m => if m.id = mid then applyPatch updates m else m) }

/-- `deleteMachine` (machineStore.ts): filters the machine out, filters out
every connection touching the id, clears selection if it pointed at the id. -/
def deleteMachine (mid : String) (s : StoreState) : StoreState :=
  { machines := s.machines.filter (fun m => m.id != mid)
    connections := s.connections.filter
      (fun c => c.fromMachineId != mid && c.toMachineId != mid)
    selectedMachineId :=
      if s.selectedMachineId = some mid then none else s.selectedMachineId }

/-- `selectMachine` (machineStore.ts): sets the selection verbatim. -/
def selectMachine (mid : Option String) (s : StoreState) : StoreState :=
  { s with selectedMachineId := mid }

/-- The `exists` check of `addConnection`:
`connections.some(c => c.fromMachineId === fromId && c.toMachineId === toId)`. -/
def connPairExists (fromId toId : String) (s : StoreState) : Bool :=
  s.connections.any (fun c => c.fromMachineId == fromId && c.toMachineId == toId)

/-- `addConnection` (machineStore.ts): rejects self-loops, rejects an existing
ordered pair, otherwise appends a connection with the generated id `genId`. -/
def addConnection (fromId toId : String) (genId : String) (s : StoreState) : StoreState :=
  if fromId = toId then s
  else if connPairExists fromId toId s then s
  else { s with connections := s.connections ++
          [{ id := genId, fromMachineId := fromId, toMachineId := toId, flowRate := none }] }

/-- `deleteConnection` (machineStore.ts). -/
def deleteConnection (cid : String) (s : StoreState) : StoreState :=
  { s with connections := s.connections.filter (fun c => c.id != cid) }

/-- `updateMachineStatus` (machineStore.ts). -/
def updateMachineStatus (mid : String) (status : MachineStatus) (s : StoreState) : StoreState :=
  { s with machines := s.machines.map (fun m => if m.id = mid then { m with status } else m) }

/-- `updateMachineThroughput` (machineStore.ts). -/
def updateMachineThroughput (mid : String) (throughput : ℚ) (s : StoreState) : StoreState :=
  { s with machines := s.machines.map (fun m => if m.id = mid then { m with throughput } else m) }

/-- The per-machine callback of `batchUpdateFromProductionData`:
`data.find(d => d.id === m.id)` picks the first matching record, and a match
replaces exactly `status` and `throughput`. -/
def reconcileMachine (data : List FeedRecord) (m : Machine) : Machine :=
  match data.find? (fun d => d.id == m.id) with
  | some u => { m with status := u.status, throughput := u.throughput }
  | none => m

/-- `batchUpdateFromProductionData` (machineStore.ts): maps the callback over
the local machines. -/
def batchUpdateFromProductionData (data : List FeedRecord) (s : StoreState) : StoreState :=
  { s with machines := s.machines.map (reconcileMachine data) }

example :
    (batchUpdateFromProductionData [⟨"m1", .stopped, 0⟩]
      { machines := [⟨"m1", "Feeder", .active, 120, (0, 0, 0), some .conveyor, none⟩],
        connections := [], selectedMachineId := none }).machines =
      [⟨"m1", "Feeder", .stopped, 0, (0, 0, 0), some .conveyor, none⟩] := by decide

/-!
## Simulator (src/hooks/useSimulation.ts)

`simulateStep` iterates over the `machines` array captured by the hook (the
snapshot at the start of the tick) and issues `updateMachineStatus` /
`updateMachineThroughput` store calls. Reads of `machine.status` and
`machine.throughput` inside the loop come from the snapshot object, writes go
to the store. The three `Math.random()` draws a machine may consume in one
iteration are provided as an oracle of rationals in `[0, 1)`.
-/

/-- `SimulationConfig` from useSimulation.ts; `defaultConfig` is
`{ updateInterval: 2000, fluctuationRange: 10 }`. -/
structure SimulationConfig where
  updateInterval : ℚ
  fluctuationRange : ℚ
deriving DecidableEq, Repr

def defaultConfig : SimulationConfig :=
  { updateInterval := 2000, fluctuationRange := 10 }

/-- The random draws one machine's iteration of `simulateStep` may consume:
`roll1` decides the 10% status change, `roll2` feeds
`generateRandomStatus`, `roll3` feeds the throughput fluctuation. -/
structure TickInput where
  roll1 : ℚ
  roll2 : ℚ
  roll3 : ℚ
deriving DecidableEq, Repr

/-- `generateRandomStatus` from useSimulation.ts. -/
def generateRandomStatus (rand : ℚ) : MachineStatus :=
  if rand > (0.85 : ℚ) then .maintenance
  else if rand > (0.7 : ℚ) then .idle
  else if rand > (0.6 : ℚ) then .stopped
  else .active

/-- `Math.floor(Math.random() * fluctuationRange * 2) - fluctuationRange`. -/
def fluctDelta (cfg : SimulationConfig) (rand : ℚ) : ℚ :=
  ((⌊rand * cfg.fluctuationRange * 2⌋ : ℤ) : ℚ) - cfg.fluctuationRange

/-- The trailing fluctuation block of the loop body: perturbs the machine's
throughput when the SNAPSHOT object's status reads `active`
(`machine.status === 'active'`). -/
def fluctuateActive (cfg : SimulationConfig) (m : Machine) (inp : TickInput)
    (s : StoreState) : StoreState :=
  if m.status = .active then
    updateMachineThroughput m.id (max 0 (m.throughput + fluctDelta cfg inp.roll3)) s
  else s

/-- The `machines.forEach` body of `simulateStep` for one snapshot machine
`m`: with probability 10% (`inp.roll1 < 0.1`) draw a new status, apply it,
and early-return after zeroing (stopped/maintenance) or scaling to 30%
(idle); otherwise fall through to the active-fluctuation block.
`Math.floor(machine.throughput * 0.3)` is modelled exactly, with `0.3 : ℚ`. -/
def simTickMachine (cfg : SimulationConfig) (m : Machine) (inp : TickInput)
    (s : StoreState) : StoreState :=
  if inp.roll1 < (0.1 : ℚ) then
    let newStatus := generateRandomStatus inp.roll2
    let s1 := updateMachineStatus m.id newStatus s
    if newStatus = .stopped ∨ newStatus = .maintenance then
      updateMachineThroughput m.id 0 s1
    else if newStatus = .idle then
      updateMachineThroughput m.id ((⌊m.throughput * (0.3 : ℚ)⌋ : ℤ) : ℚ) s1
    else
      fluctuateActive cfg m inp s1
  else
    fluctuateActive cfg m inp s

/-- Folds the loop body over the snapshot list, feeding machine `i` the
oracle entry `rand i`. -/
def simTickFrom (cfg : SimulationConfig) (rand : Nat → TickInput) :
    Nat → List Machine → StoreState → StoreState
  | _, [], s => s
  | i, m :: ms, s => simTickFrom cfg rand (i + 1) ms (simTickMachine cfg m (rand i) s)

/-- `simulateStep`: one tick over the snapshot `s.machines`. -/
def simulateStep (cfg : SimulationConfig) (rand : Nat → TickInput)
    (s : StoreState) : StoreState :=
  simTickFrom cfg rand 0 s.machines s

/-- Any number of consecutive ticks, each with its own oracle. -/
def simulateTicks (cfg : SimulationConfig) :
    List (Nat → TickInput) → StoreState → StoreState
  | [], s => s
  | r :: rs, s => simulateTicks cfg rs (simulateStep cfg r s)

/-!
## Push feed adapter (`ProductionWebSocket`, src/api/productionApi.ts)

Only the reconnect bookkeeping is modelled: `onopen` resets
`reconnectAttempts` to 0; `onclose` runs `attemptReconnect`, which schedules
a reconnect (`setTimeout(connect, reconnectInterval)`) exactly when
`reconnectAttempts < maxReconnectAttempts`, incrementing the counter, and
otherwise only reports that the maximum was reached.
-/

structure ProductionWebSocket where
  reconnectInterval : ℚ
  reconnectAttempts : Nat
  maxReconnectAttempts : Nat
deriving DecidableEq, Repr

/-- Field initializers of the class: interval 3000, attempts 0, max 5. -/
def ProductionWebSocket.init : ProductionWebSocket :=
  { reconnectInterval := 3000, reconnectAttempts := 0, maxReconnectAttempts := 5 }

inductive WSEvent where
  | onopen
  | onclose
deriving DecidableEq, Repr

/-- One socket event: returns the new adapter state and whether a reconnect
attempt was scheduled. -/
def wsHandleEvent (w : ProductionWebSocket) : WSEvent → ProductionWebSocket × Bool
  | .onopen => ({ w with reconnectAttempts := 0 }, false)
  | .onclose =>
      if w.reconnectAttempts < w.maxReconnectAttempts then
        ({ w with reconnectAttempts := w.reconnectAttempts + 1 }, true)
      else
        (w, false)

/-- How many reconnect attempts a run of events schedules. -/
def wsScheduledCount (w : ProductionWebSocket) : List WSEvent → Nat
  | [] => 0
  | e :: es =>
      (if (wsHandleEvent w e).2 then 1 else 0) + wsScheduledCount (wsHandleEvent w e).1 es

/-!
## Operation sequences

For the trace-shaped claims the store's public mutation operations are
reified as a syntax of calls; nondeterministic generated ids travel with the
call that generates them.
-/

/-- The ids of the machines currently in the store. -/
def machineIds (s : StoreState) : List String :=
  s.machines.map Machine.id

/-- One call to a store mutation operation. -/
inductive StoreOp where
  | addMachine (fields : MachineFields) (genId : String)
  | updateMachine (mid : String) (updates : MachinePatch)
  | deleteMachine (mid : String)
  | selectMachine (mid : Option String)
  | addConnection (fromId toId genId : String)
  | deleteConnection (cid : String)
  | updateMachineStatus (mid : String) (status : MachineStatus)
  | updateMachineThroughput (mid : String) (throughput : ℚ)
  | batchUpdateFromProductionData (data : List FeedRecord)

/-- Dispatch of a reified call to the store operation it names. -/
def applyOp : StoreOp → StoreState → StoreState
  | .addMachine fields genId, s => addMachine fields genId s
  | .updateMachine mid updates, s => updateMachine mid updates s
  | .deleteMachine mid, s => deleteMachine mid s
  | .selectMachine mid, s => selectMachine mid s
  | .addConnection fromId toId genId, s => addConnection fromId toId genId s
  | .deleteConnection cid, s => deleteConnection cid s
  | .updateMachineStatus mid status, s => updateMachineStatus mid status s
  | .updateMachineThroughput mid throughput, s => updateMachineThroughput mid throughput s
  | .batchUpdateFromProductionData data, s => batchUpdateFromProductionData data s

def applyOps : List StoreOp → StoreState → StoreState
  | [], s => s
  | op :: ops, s => applyOps ops (applyOp op s)

/-- The selection either is empty or names a machine present in the store. -/
def selectionValid (s : StoreState) : Bool :=
  match s.selectedMachineId with
  | none => true
  | some i => (machineIds s).contains i

/-- Caller-side discipline: `selectMachine` is only handed ids of machines
currently in the store (or `none`), and `updateMachine` partials carry no
`id` key. All other calls are unrestricted. -/
def opGuard : StoreOp → StoreState → Bool
  | .selectMachine none, _ => true
  | .selectMachine (some i), s => (machineIds s).contains i
  | .updateMachine _ updates, _ => updates.id.isNone
  | _, _ => true

/-- Every call of the trace obeys `opGuard` in the state where it runs. -/
def guardedTrace : List StoreOp → StoreState → Bool
  | [], _ => true
  | op :: ops, s => opGuard op s && guardedTrace ops (applyOp op s)

/-- A sequence of `addMachine` calls. -/
def applyAddCalls : List (MachineFields × String) → StoreState → StoreState
  | [], s => s
  | (fields, genId) :: calls, s => applyAddCalls calls (addMachine fields genId s)

/-- Every generated id of the call sequence is absent from the store at the
moment its call runs. -/
def freshIds : List (MachineFields × String) → StoreState → Bool
  | [], _ => true
  | (fields, genId) :: calls, s =>
      !(machineIds s).contains genId && freshIds calls (addMachine fields genId s)

example : wsScheduledCount ProductionWebSocket.init
    [.onclose, .onclose, .onclose, .onclose, .onclose, .onclose, .onclose] = 5 := by decide

example :
    (simulateStep defaultConfig (fun _ => ⟨0, 0.5, 0.85⟩)
      { machines := [⟨"m1", "M", .idle, 50, (0, 0, 0), none, none⟩],
        connections := [], selectedMachineId := none }).machines =
      [⟨"m1", "M", .active, 50, (0, 0, 0), none, none⟩] := by decide

example : fluctDelta defaultConfig (0.85 : ℚ) = 7 := by decide

/-!
## Helper lemmas
-/

/-- A member of `l.zip (l.map f)` is a pair `(a, f a)`. -/
lemma snd_eq_of_mem_zip_map {α : Type} {f : α → α} :
    ∀ {l : List α} {q : α × α}, q ∈ l.zip (l.map f) → q.2 = f q.1 := by
  intro l
  induction l with
  | nil => intro q h; simp [List.zip] at h
  | cons a t ih =>
      intro q h
      rcases (by simpa using h : q = (a, f a) ∨ q ∈ t.zip (t.map f)) with h' | h'
      · rw [h']
      · exact ih h'

/-- `find?` returns the first element satisfying the predicate: if index `j`
holds a satisfying element and every earlier index does not, `find?` returns
that element. -/
lemma find?_eq_of_first {α : Type} (p : α → Bool) :
    ∀ (l : List α) (j : Nat) (r : α), l.get? j = some r → p r = true →
      (∀ k r', k < j → l.get? k = some r' → p r' = false) → l.find? p = some r := by
  intro l
  induction l with
  | nil => intro j r hj; simp at hj
  | cons a t ih =>
      intro j r hj hp hearlier
      cases j with
      | zero =>
          simp only [List.get?_cons_zero, Option.some.injEq] at hj
          subst hj
          simp [List.find?_cons_of_pos _ hp]
      | succ jj =>
          have ha : p a = false := hearlier 0 a (Nat.succ_pos jj) rfl
          rw [List.find?_cons_of_neg _ (by simp [ha])]
          exact ih jj r hj hp
            (fun k r' hk hg => hearlier (k + 1) r' (Nat.succ_lt_succ hk) hg)

/-- Mapping an id-preserving function over the machines preserves the id
list. -/
lemma map_id_of_id_preserving {l : List Machine} {f : Machine → Machine}
    (hf : ∀ m ∈ l, (f m).id = m.id) :
    (l.map f).map Machine.id = l.map Machine.id := by
  rw [List.map_map]
  exact List.map_congr_left hf

lemma contains_iff_mem {l : List String} {a : String} :
    l.contains a = true ↔ a ∈ l :=
  List.elem_iff

/-- How `reconcileMachine` acts, destructured by the `find?` result. -/
lemma reconcileMachine_eq_of_find?_some {data : List FeedRecord} {m : Machine}
    {u : FeedRecord} (h : data.find? (fun d => d.id == m.id) = some u) :
    reconcileMachine data m = { m with status := u.status, throughput := u.throughput } := by
  simp [reconcileMachine, h]

lemma reconcileMachine_eq_of_find?_none {data : List FeedRecord} {m : Machine}
    (h : data.find? (fun d => d.id == m.id) = none) :
    reconcileMachine data m = m := by
  simp [reconcileMachine, h]

lemma reconcileMachine_id (data : List FeedRecord) (m : Machine) :
    (reconcileMachine data m).id = m.id := by
  rcases h : data.find? (fun d => d.id == m.id) with _ | u <;>
    simp [reconcileMachine, h]

/-!
## C1 — reconciliation is an id-keyed left-merge
-/

/-- C1: `batchUpdateFromProductionData` keeps the machine count, the
connections and the selection unchanged; positionally, a machine whose id
matches a batch record gets exactly that record's status and throughput
(name, position, type, description, id untouched), and a machine matching no
record is entirely unchanged; unmatched batch records create nothing. -/
theorem batchUpdate_id_keyed_left_merge (s : StoreState) (data : List FeedRecord) :
    (batchUpdateFromProductionData data s).machines.length = s.machines.length ∧
    (batchUpdateFromProductionData data s).connections = s.connections ∧
    (batchUpdateFromProductionData data s).selectedMachineId = s.selectedMachineId ∧
    ∀ q ∈ s.machines.zip (batchUpdateFromProductionData data s).machines,
      (q.2.id = q.1.id ∧ q.2.name = q.1.name ∧ q.2.position = q.1.position ∧
        q.2.type = q.1.type ∧ q.2.description = q.1.description) ∧
      ((∀ r ∈ data, r.id ≠ q.1.id) → q.2 = q.1) ∧
      (∀ r, data.find? (fun d => d.id == q.1.id) = some r →
        q.2.status = r.status ∧ q.2.throughput = r.throughput) := by
  refine ⟨by simp [batchUpdateFromProductionData], rfl, rfl, ?_⟩
  intro q hq
  have hq2 : q.2 = reconcileMachine data q.1 := snd_eq_of_mem_zip_map hq
  rcases hfind : data.find? (fun d => d.id == q.1.id) with _ | r
  · rw [hq2, reconcileMachine_eq_of_find?_none hfind]
    exact ⟨⟨rfl, rfl, rfl, rfl, rfl⟩, fun _ => rfl, fun r hr => by simp [hr] at hfind⟩
  · rw [hq2, reconcileMachine_eq_of_find?_some hfind]
    refine ⟨⟨rfl, rfl, rfl, rfl, rfl⟩, ?_, ?_⟩
    · intro hnone
      have hrin : r ∈ data := List.mem_of_find?_eq_some hfind
      have hrid := List.find?_some hfind
      exact absurd (by simpa using hrid) (hnone r hrin)
    · intro r' hr'
      rw [hfind] at hr'
      cases hr'
      exact ⟨rfl, rfl⟩

def demoFeederOld : Machine :=
  ⟨"m1", "Feeder", .active, 120, (0, 0, 0), some .conveyor, none⟩

def demoFeederNew : Machine :=
  ⟨"m1", "Feeder", .stopped, 0, (0, 0, 0), some .conveyor, none⟩

def demoStore : StoreState :=
  { machines := [demoFeederOld, ⟨"m2", "Packer", .idle, 10, (1, 0, 0), some .packer, none⟩],
    connections := [⟨"c1", "m1", "m2", none⟩],
    selectedMachineId := some "m1" }

def demoBatch : List FeedRecord :=
  [⟨"m1", .stopped, 0⟩, ⟨"m9", .active, 5⟩]

/-- Witness for C1: the spec's scenario, the `m1` record replaces status and
throughput of the Feeder and leaves the other fields alone. -/
theorem batchUpdate_id_keyed_left_merge_witness :
    (demoFeederNew.id = demoFeederOld.id ∧ demoFeederNew.name = demoFeederOld.name ∧
      demoFeederNew.position = demoFeederOld.position ∧
      demoFeederNew.type = demoFeederOld.type ∧
      demoFeederNew.description = demoFeederOld.description) ∧
    demoFeederNew.status = MachineStatus.stopped ∧ demoFeederNew.throughput = 0 := by
  have h := (batchUpdate_id_keyed_left_merge demoStore demoBatch).2.2.2
    (demoFeederOld, demoFeederNew) (by decide)
  exact ⟨h.1, h.2.2 ⟨"m1", .stopped, 0⟩ (by decide)⟩

/-!
## C10 — duplicate-id batch records: first record wins
-/

/-- C10: every batch leaves the machine list's ids (hence its length and
order) unchanged, and a machine whose id is carried by the record at batch
index `j`, with no earlier record carrying it, receives exactly that record's
status and throughput — later duplicates are ignored. -/
theorem batchUpdate_first_duplicate_record_wins (s : StoreState) (data : List FeedRecord) :
    (batchUpdateFromProductionData data s).machines.map Machine.id =
      s.machines.map Machine.id ∧
    ∀ q ∈ s.machines.zip (batchUpdateFromProductionData data s).machines,
      ∀ j r, data.get? j = some r → r.id = q.1.id →
        (∀ k r', k < j → data.get? k = some r' → r'.id ≠ q.1.id) →
        q.2.status = r.status ∧ q.2.throughput = r.throughput := by
  constructor
  · exact map_id_of_id_preserving (fun m _ => reconcileMachine_id data m)
  · intro q hq j r hj hrid hearlier
    have hq2 : q.2 = reconcileMachine data q.1 := snd_eq_of_mem_zip_map hq
    have hfind : data.find? (fun d => d.id == q.1.id) = some r :=
      find?_eq_of_first _ data j r hj (by simp [hrid])
        (fun k r' hk hg => by
          have := hearlier k r' hk hg
          simp [this])
    rw [hq2, reconcileMachine_eq_of_find?_some hfind]
    exact ⟨rfl, rfl⟩

def demoDupBatch : List FeedRecord :=
  [⟨"m1", .stopped, 0⟩, ⟨"m1", .active, 99⟩]

/-- Witness for C10: with two records for `m1`, the first (stopped, 0) wins
and the second is ignored; ids are unchanged. -/
theorem batchUpdate_first_duplicate_record_wins_witness :
    (batchUpdateFromProductionData demoDupBatch demoStore).machines.map Machine.id =
      demoStore.machines.map Machine.id ∧
    demoFeederNew.status = MachineStatus.stopped ∧ demoFeederNew.throughput = 0 := by
  have h := batchUpdate_first_duplicate_record_wins demoStore demoDupBatch
  refine ⟨h.1, ?_⟩
  exact h.2 (demoFeederOld, demoFeederNew) (by decide) 0 ⟨"m1", .stopped, 0⟩ rfl rfl
    (fun k r' hk _ => absurd hk (Nat.not_lt_zero k))

/-!
## C2 — deletion cascade integrity
-/

def danglingConnStore : StoreState :=
  { machines := [],
    connections := [⟨"c1", "m1", "m2", none⟩],
    selectedMachineId := none }

/-- Counterexample for C2 as stated: in a store where no machine has id
`m1` but a connection references it, `deleteMachine "m1"` is not a no-op —
it removes the dangling connection. -/
theorem deleteMachine_absent_id_not_always_noop :
    (∀ m ∈ danglingConnStore.machines, m.id ≠ "m1") ∧
    deleteMachine "m1" danglingConnStore ≠ danglingConnStore := by decide

/-- C2 amended: after `deleteMachine id`, no machine carries `id`, no
connection references `id` at either endpoint, and a selection equal to `id`
is cleared; the call is a no-op when `id` is absent from the machines AND no
connection references it AND the selection does not equal it. -/
theorem deleteMachine_cascade_integrity (s : StoreState) (mid : String) :
    (∀ m ∈ (deleteMachine mid s).machines, m.id ≠ mid) ∧
    (∀ c ∈ (deleteMachine mid s).connections,
      c.fromMachineId ≠ mid ∧ c.toMachineId ≠ mid) ∧
    (s.selectedMachineId = some mid → (deleteMachine mid s).selectedMachineId = none) ∧
    ((∀ m ∈ s.machines, m.id ≠ mid) →
      (∀ c ∈ s.connections, c.fromMachineId ≠ mid ∧ c.toMachineId ≠ mid) →
      s.selectedMachineId ≠ some mid → deleteMachine mid s = s) := by
  refine ⟨?_, ?_, ?_, ?_⟩
  · intro m hm
    have := (List.mem_filter.mp hm).2
    simpa using this
  · intro c hc
    have := (List.mem_filter.mp hc).2
    constructor
    · simpa using (Bool.and_elim_left this)
    · simpa using (Bool.and_elim_right this)
  · intro hsel
    simp [deleteMachine, hsel]
  · intro hm hc hsel
    cases s with
    | mk machines connections selectedMachineId =>
        simp only [deleteMachine, StoreState.mk.injEq]
        refine ⟨?_, ?_, ?_⟩
        · rw [List.filter_eq_self]
          intro m hmem
          simpa using hm m hmem
        · rw [List.filter_eq_self]
          intro c hcm
          have := hc c hcm
          simp [this.1, this.2]
        · simp only [ne_eq] at hsel
          simp [hsel]

/-- Witness for C2 amended: deleting `m1` from the demo store removes its
machine and the `c1` connection and clears the selection; a fresh id on the
same store is a no-op. -/
theorem deleteMachine_cascade_integrity_witness :
    (∀ m ∈ (deleteMachine "m1" demoStore).machines, m.id ≠ "m1") ∧
    (∀ c ∈ (deleteMachine "m1" demoStore).connections,
      c.fromMachineId ≠ "m1" ∧ c.toMachineId ≠ "m1") ∧
    (deleteMachine "m1" demoStore).selectedMachineId = none ∧
    deleteMachine "zzz" demoStore = demoStore := by
  have h1 := deleteMachine_cascade_integrity demoStore "m1"
  have h2 := deleteMachine_cascade_integrity demoStore "zzz"
  exact ⟨h1.1, h1.2.1, h1.2.2.1 (by decide),
    h2.2.2.2 (by decide) (by decide) (by decide)⟩

/-!
## C6 — machine id immutability
-/

def storeM1 : StoreState :=
  { machines := [⟨"m1", "Feeder", .active, 120, (0, 0, 0), some .conveyor, none⟩],
    connections := [], selectedMachineId := none }

/-- Counterexample for C6 as stated: `Partial<Machine>` includes the `id`
key, and `updateMachine("m1", { id: "m2" })` rewrites the machine's id. -/
theorem updateMachine_patch_can_change_id :
    machineIds storeM1 = ["m1"] ∧
    machineIds (updateMachine "m1" { id := some "m2" } storeM1) = ["m2"] := by decide

/-- C6 amended: ids are assigned at creation, and no mutation of machine
contents — `updateMachine` with an id-free partial, the single-field status
and throughput updates, or batch reconciliation — changes the id of any
existing machine. -/
theorem updateMachine_id_immutable_without_id_key (s : StoreState) (mid : String)
    (updates : MachinePatch) (status : MachineStatus) (t : ℚ) (data : List FeedRecord)
    (h : updates.id = none) :
    machineIds (updateMachine mid updates s) = machineIds s ∧
    machineIds (updateMachineStatus mid status s) = machineIds s ∧
    machineIds (updateMachineThroughput mid t s) = machineIds s ∧
    machineIds (batchUpdateFromProductionData data s) = machineIds s := by
  refine ⟨?_, ?_, ?_, ?_⟩
  · refine map_id_of_id_preserving (fun m _ => ?_)
    by_cases hm : m.id = mid <;> simp [hm, applyPatch, h]
  · refine map_id_of_id_preserving (fun m _ => ?_)
    by_cases hm : m.id = mid <;> simp [hm]
  · refine map_id_of_id_preserving (fun m _ => ?_)
    by_cases hm : m.id = mid <;> simp [hm]
  · exact map_id_of_id_preserving (fun m _ => reconcileMachine_id data m)

/-- Witness for C6 amended: an id-free partial renaming the machine leaves
the id list `["m1"]` unchanged. -/
theorem updateMachine_id_immutable_without_id_key_witness :
    machineIds (updateMachine "m1" { name := some "Renamed" } storeM1) =
      machineIds storeM1 ∧
    machineIds (batchUpdateFromProductionData demoBatch storeM1) = machineIds storeM1 := by
  have h := updateMachine_id_immutable_without_id_key storeM1 "m1"
    { name := some "Renamed" } .idle 0 demoBatch rfl
  exact ⟨h.1, h.2.2.2⟩

/-!
## C7 — connection validation
-/

/-- C7: `addConnection(a, a)` leaves the store unchanged; `addConnection`
on an already-present ordered pair is a no-op; hence two successive
`addConnection(a, b)` calls starting without the pair yield exactly one
connection from `a` to `b`. -/
theorem addConnection_rejects_self_loop_and_duplicate (s : StoreState)
    (a b gid gid2 : String) :
    addConnection a a gid s = s ∧
    (connPairExists a b s = true → addConnection a b gid s = s) ∧
    (a ≠ b → connPairExists a b s = false →
      ((addConnection a b gid2 (addConnection a b gid s)).connections.countP
        (fun c => c.fromMachineId == a && c.toMachineId == b)) = 1) := by
  refine ⟨by simp [addConnection], ?_, ?_⟩
  · intro hex
    by_cases hab : a = b
    · simp [addConnection, hab]
    · simp [addConnection, hab, hex]
  · intro hab hex
    have h1 : addConnection a b gid s =
        { s with connections := s.connections ++
            [{ id := gid, fromMachineId := a, toMachineId := b, flowRate := none }] } := by
      simp [addConnection, hab, hex]
    have h2 : connPairExists a b (addConnection a b gid s) = true := by
      rw [h1]
      simp [connPairExists]
    have h3 : addConnection a b gid2 (addConnection a b gid s) =
        addConnection a b gid s := by
      rw [h1] at h2
      rw [h1]
      simp [addConnection, hab, h2]
    rw [h3, h1]
    have hzero : s.connections.countP
        (fun c => c.fromMachineId == a && c.toMachineId == b) = 0 := by
      rw [List.countP_eq_zero]
      intro c hc
      intro hcontra
      have : s.connections.any (fun c => c.fromMachineId == a && c.toMachineId == b) = true :=
        List.any_eq_true.mpr ⟨c, hc, hcontra⟩
      rw [connPairExists] at hex
      simp [this] at hex
    simp [List.countP_append, hzero, List.countP_cons]

/-- Witness for C7: on the empty store, two `addConnection("m1","m2")` calls
leave exactly one `m1 → m2` connection, a duplicate call is a no-op, and a
self-loop call changes nothing. -/
theorem addConnection_rejects_self_loop_and_duplicate_witness :
    addConnection "m1" "m1" "c9" initialState = initialState ∧
    ((addConnection "m1" "m2" "c2" (addConnection "m1" "m2" "c1" initialState)).connections.countP
      (fun c => c.fromMachineId == "m1" && c.toMachineId == "m2")) = 1 := by
  have h := addConnection_rejects_self_loop_and_duplicate initialState "m1" "m2" "c1" "c2"
  exact ⟨(addConnection_rejects_self_loop_and_duplicate initialState "m1" "m1" "c9" "c9").1,
    h.2.2 (by decide) (by decide)⟩

/-!
## C3 — machine id uniqueness under addMachine sequences
-/

lemma machineIds_addMachine (fields : MachineFields) (genId : String) (s : StoreState) :
    machineIds (addMachine fields genId s) = machineIds s ++ [genId] := by
  simp [machineIds, addMachine]

def demoFields : MachineFields :=
  ⟨"New Machine", .idle, 0, (0, 0, 0), none, none⟩

def storeX : StoreState :=
  { machines := [⟨"x", "M", .active, 1, (0, 0, 0), none, none⟩],
    connections := [], selectedMachineId := none }

/-- Counterexample for C3 as stated: `addMachine` performs no uniqueness
check on the generated `machine-${Date.now()}-${random}` string, so a call
whose generated id collides with an existing machine's id (possible since
the scheme is only probabilistically fresh) produces duplicate ids. -/
theorem addMachine_colliding_generated_id_breaks_uniqueness :
    (machineIds storeX).Nodup ∧
    ¬ (machineIds (addMachine demoFields "x" storeX)).Nodup := by decide

/-- C3 amended: provided each call's generated id is fresh — absent from the
store at the moment of the call, which the timestamp-plus-random scheme makes
overwhelmingly likely but does not guarantee — any sequence of `addMachine`
calls keeps the machine ids pairwise distinct. -/
theorem addMachine_fresh_generated_ids_keep_uniqueness
    (calls : List (MachineFields × String)) (s : StoreState)
    (h1 : (machineIds s).Nodup) (h2 : freshIds calls s = true) :
    (machineIds (applyAddCalls calls s)).Nodup := by
  induction calls generalizing s with
  | nil => exact h1
  | cons call rest ih =>
      obtain ⟨fields, genId⟩ := call
      simp only [freshIds, Bool.and_eq_true, Bool.not_eq_true'] at h2
      obtain ⟨hfresh, hrest⟩ := h2
      have hnotmem : genId ∉ machineIds s := by
        intro hmem
        rw [contains_iff_mem.mpr hmem] at hfresh
        exact Bool.noConfusion hfresh
      refine ih (addMachine fields genId s) ?_ hrest
      rw [machineIds_addMachine]
      simp [List.nodup_append, h1, hnotmem]

/-- Witness for C3 amended: two fresh generated ids added to the empty store
leave the id list duplicate-free. -/
theorem addMachine_fresh_generated_ids_keep_uniqueness_witness :
    freshIds [(demoFields, "machine-1-a"), (demoFields, "machine-2-b")] initialState = true ∧
    (machineIds (applyAddCalls
      [(demoFields, "machine-1-a"), (demoFields, "machine-2-b")] initialState)).Nodup :=
  ⟨by decide, addMachine_fresh_generated_ids_keep_uniqueness
    [(demoFields, "machine-1-a"), (demoFields, "machine-2-b")] initialState
    (by decide) (by decide)⟩

/-!
## C5 — selection validity
-/

/-- Counterexample for C5 as stated: `selectMachine` stores its argument
verbatim, so selecting an id that names no machine — reachable from the
initial state — leaves a dangling selection. -/
theorem selection_validity_not_preserved_unguarded :
    selectionValid (applyOps [StoreOp.selectMachine (some "m1")] initialState) = false := by
  decide

lemma selectionValid_of_ids_and_sel {s s' : StoreState}
    (hsel : s'.selectedMachineId = s.selectedMachineId)
    (hids : machineIds s' = machineIds s)
    (h : selectionValid s = true) : selectionValid s' = true := by
  unfold selectionValid at h ⊢
  rw [hsel, hids]
  exact h

lemma selectionValid_step {op : StoreOp} {s : StoreState}
    (hg : opGuard op s = true) (h : selectionValid s = true) :
    selectionValid (applyOp op s) = true := by
  cases op with
  | addMachine fields genId =>
      unfold selectionValid at h ⊢
      rcases hsel : s.selectedMachineId with _ | i
      · simp [applyOp, addMachine, hsel]
      · rw [hsel] at h
        have hmem : i ∈ machineIds s := contains_iff_mem.mp h
        simp only [applyOp]
        rw [show (addMachine fields genId s).selectedMachineId = some i by
          simp [addMachine, hsel]]
        refine contains_iff_mem.mpr ?_
        rw [machineIds_addMachine]
        exact List.mem_append_left _ hmem
  | updateMachine mid updates =>
      have hid : updates.id = none := by
        simp only [opGuard, Option.isNone_iff_eq_none] at hg
        exact hg
      refine selectionValid_of_ids_and_sel ?_ ?_ h
      · rfl
      · refine map_id_of_id_preserving (fun m _ => ?_)
        by_cases hm : m.id = mid <;> simp [hm, applyPatch, hid]
  | deleteMachine mid =>
      unfold selectionValid at h ⊢
      rcases hsel : s.selectedMachineId with _ | i
      · simp [applyOp, deleteMachine, hsel]
      · rw [hsel] at h
        have hmem : i ∈ machineIds s := contains_iff_mem.mp h
        by_cases hi : i = mid
        · simp [applyOp, deleteMachine, hsel, hi]
        · rw [show (applyOp (StoreOp.deleteMachine mid) s).selectedMachineId = some i by
            simp [applyOp, deleteMachine, hsel, hi]]
          refine contains_iff_mem.mpr ?_
          obtain ⟨m, hm, hmid⟩ := List.mem_map.mp hmem
          refine List.mem_map.mpr ⟨m, ?_, hmid⟩
          refine List.mem_filter.mpr ⟨hm, ?_⟩
          simp [hmid, hi]
  | selectMachine mid =>
      cases mid with
      | none => simp [applyOp, selectMachine, selectionValid]
      | some i =>
          simp only [opGuard] at hg
          unfold selectionValid
          simp only [applyOp, selectMachine]
          exact hg
  | addConnection fromId toId genId =>
      refine selectionValid_of_ids_and_sel ?_ ?_ h <;>
        · simp only [applyOp, addConnection]
          split <;> try split
          all_goals rfl
  | deleteConnection cid =>
      exact selectionValid_of_ids_and_sel rfl rfl h
  | updateMachineStatus mid status =>
      refine selectionValid_of_ids_and_sel ?_ ?_ h
      · rfl
      · refine map_id_of_id_preserving (fun m _ => ?_)
        by_cases hm : m.id = mid <;> simp [hm]
  | updateMachineThroughput mid t =>
      refine selectionValid_of_ids_and_sel ?_ ?_ h
      · rfl
      · refine map_id_of_id_preserving (fun m _ => ?_)
        by_cases hm : m.id = mid <;> simp [hm]
  | batchUpdateFromProductionData data =>
      refine selectionValid_of_ids_and_sel ?_ ?_ h
      · rfl
      · exact map_id_of_id_preserving (fun m _ => reconcileMachine_id data m)

/-- C5 amended: the selection invariant holds along every operation sequence
whose `selectMachine` calls pass `none` or an id of a machine present at the
call, and whose `updateMachine` partials carry no `id` key; in particular it
holds in every state so reachable from the initial state. -/
theorem selection_validity_guarded_traces (ops : List StoreOp) (s : StoreState)
    (h1 : selectionValid s = true) (h2 : guardedTrace ops s = true) :
    selectionValid (applyOps ops s) = true := by
  induction ops generalizing s with
  | nil => exact h1
  | cons op rest ih =>
      simp only [guardedTrace, Bool.and_eq_true] at h2
      exact ih (applyOp op s) (selectionValid_step h2.1 h1) h2.2

def demoOps : List StoreOp :=
  [.addMachine demoFields "machine-001",
   .selectMachine (some "machine-001"),
   .addConnection "machine-001" "machine-002" "conn-001",
   .updateMachine "machine-001" { name := some "Renamed" },
   .deleteMachine "machine-001"]

/-- Witness for C5 amended: a guarded trace from the initial state — add,
select, connect, rename, delete — ends with a valid (cleared) selection. -/
theorem selection_validity_guarded_traces_witness :
    guardedTrace demoOps initialState = true ∧
    selectionValid (applyOps demoOps initialState) = true :=
  ⟨by decide, selection_validity_guarded_traces demoOps initialState (by decide) (by decide)⟩

/-!
## C8 — simulator throughput floor
-/

lemma updateMachineThroughput_nonneg {s : StoreState} {mid : String} {v : ℚ}
    (hv : 0 ≤ v) (h : ∀ m ∈ s.machines, 0 ≤ m.throughput) :
    ∀ m ∈ (updateMachineThroughput mid v s).machines, 0 ≤ m.throughput := by
  intro m hm
  simp only [updateMachineThroughput, List.mem_map] at hm
  obtain ⟨m0, hm0, hm0eq⟩ := hm
  by_cases hid : m0.id = mid
  · rw [← hm0eq]
    simp [hid, hv]
  · rw [← hm0eq]
    simp only [hid, if_false]
    exact h m0 hm0

lemma updateMachineStatus_nonneg {s : StoreState} {mid : String} {st : MachineStatus}
    (h : ∀ m ∈ s.machines, 0 ≤ m.throughput) :
    ∀ m ∈ (updateMachineStatus mid st s).machines, 0 ≤ m.throughput := by
  intro m hm
  simp only [updateMachineStatus, List.mem_map] at hm
  obtain ⟨m0, hm0, hm0eq⟩ := hm
  by_cases hid : m0.id = mid <;> rw [← hm0eq] <;> simp [hid] <;> exact h m0 hm0

lemma fluctuateActive_nonneg {cfg : SimulationConfig} {m : Machine} {inp : TickInput}
    {s : StoreState} (h : ∀ m' ∈ s.machines, 0 ≤ m'.throughput) :
    ∀ m' ∈ (fluctuateActive cfg m inp s).machines, 0 ≤ m'.throughput := by
  unfold fluctuateActive
  split
  · exact updateMachineThroughput_nonneg (le_max_left 0 _) h
  · exact h

lemma simTickMachine_nonneg {cfg : SimulationConfig} {m : Machine} {inp : TickInput}
    {s : StoreState} (hm : 0 ≤ m.throughput)
    (h : ∀ m' ∈ s.machines, 0 ≤ m'.throughput) :
    ∀ m' ∈ (simTickMachine cfg m inp s).machines, 0 ≤ m'.throughput := by
  by_cases hroll : inp.roll1 < (0.1 : ℚ)
  · rcases hgen : generateRandomStatus inp.roll2 with _ | _ | _ | _
    · simp only [simTickMachine, hroll, if_true, hgen, reduceCtorEq, or_self, if_false]
      exact fluctuateActive_nonneg (updateMachineStatus_nonneg h)
    · simp only [simTickMachine, hroll, if_true, hgen, reduceCtorEq, or_self, if_false,
        if_true]
      refine updateMachineThroughput_nonneg ?_ (updateMachineStatus_nonneg h)
      refine Int.cast_nonneg.mpr (Int.floor_nonneg.mpr ?_)
      exact mul_nonneg hm (by norm_num)
    · simp only [simTickMachine, hroll, if_true, hgen, reduceCtorEq, or_false, if_true]
      exact updateMachineThroughput_nonneg le_rfl (updateMachineStatus_nonneg h)
    · simp only [simTickMachine, hroll, if_true, hgen, reduceCtorEq, or_true, if_true]
      exact updateMachineThroughput_nonneg le_rfl (updateMachineStatus_nonneg h)
  · simp only [simTickMachine, hroll, if_false]
    exact fluctuateActive_nonneg h

lemma simTickFrom_nonneg (cfg : SimulationConfig) (rand : Nat → TickInput) :
    ∀ (i : Nat) (ms : List Machine) (s : StoreState),
      (∀ m ∈ ms, 0 ≤ m.throughput) → (∀ m ∈ s.machines, 0 ≤ m.throughput) →
      ∀ m ∈ (simTickFrom cfg rand i ms s).machines, 0 ≤ m.throughput := by
  intro i ms
  induction ms generalizing i with
  | nil => intro s _ hs; exact hs
  | cons m0 rest ih =>
      intro s hms hs
      have hm0 : 0 ≤ m0.throughput := hms m0 (List.mem_cons_self m0 rest)
      exact ih (i + 1) (simTickMachine cfg m0 (rand i) s)
        (fun m hm => hms m (List.mem_cons_of_mem m0 hm))
        (simTickMachine_nonneg hm0 hs)

/-- C8: from any store whose machines all have non-negative throughput, any
number of simulator ticks — with any random draws — leaves every machine's
throughput non-negative: the stopped/maintenance zeroing, the idle
floor-scaling and the clamped active fluctuation all preserve the floor. -/
theorem simulator_throughput_floor (cfg : SimulationConfig)
    (rands : List (Nat → TickInput)) (s : StoreState)
    (h : ∀ m ∈ s.machines, 0 ≤ m.throughput) :
    ∀ m ∈ (simulateTicks cfg rands s).machines, 0 ≤ m.throughput := by
  induction rands generalizing s with
  | nil => exact h
  | cons r rest ih =>
      refine ih (simulateStep cfg r s) ?_
      exact simTickFrom_nonneg cfg r 0 s.machines s h h

/-- Witness for C8: three ticks on a two-machine store with mixed draws keep
throughputs at least 0. -/
theorem simulator_throughput_floor_witness :
    (∀ m ∈ demoStore.machines, 0 ≤ m.throughput) ∧
    ∀ m ∈ (simulateTicks defaultConfig
        [fun _ => ⟨0, 0.65, 0⟩, fun _ => ⟨1, 0, 0.99⟩, fun _ => ⟨0, 0.75, 0.2⟩]
        demoStore).machines, 0 ≤ m.throughput :=
  ⟨by decide, simulator_throughput_floor defaultConfig
    [fun _ => ⟨0, 0.65, 0⟩, fun _ => ⟨1, 0, 0.99⟩, fun _ => ⟨0, 0.75, 0.2⟩]
    demoStore (by decide)⟩

/-!
## C9 — push adapter bounded reconnect attempts
-/

lemma wsScheduledCount_le_sub (evs : List WSEvent) :
    ∀ w : ProductionWebSocket, WSEvent.onopen ∉ evs →
      wsScheduledCount w evs ≤ w.maxReconnectAttempts - w.reconnectAttempts := by
  induction evs with
  | nil => intro w _; exact Nat.zero_le _
  | cons e rest ih =>
      intro w hno
      have hne : e ≠ WSEvent.onopen := fun he => hno (he ▸ List.mem_cons_self e rest)
      have hnr : WSEvent.onopen ∉ rest := fun hr => hno (List.mem_cons_of_mem e hr)
      cases e with
      | onopen => exact absurd rfl hne
      | onclose =>
          by_cases hlt : w.reconnectAttempts < w.maxReconnectAttempts
          · simp only [wsScheduledCount, wsHandleEvent, hlt, if_true]
            have := ih { w with reconnectAttempts := w.reconnectAttempts + 1 } hnr
            simp only at this
            omega
          · simp only [wsScheduledCount, wsHandleEvent, hlt, if_false]
            have := ih w hnr
            simp only [Bool.false_eq_true, if_false]
            omega

/-- C9: starting from any adapter state, a run of socket events containing no
successful connection schedules at most `maxReconnectAttempts` reconnect
attempts; once the counter has reached the bound, such a run schedules none
at all (terminal until externally restarted); the constructor's bound is 5. -/
theorem push_adapter_bounded_reconnects (w : ProductionWebSocket) (evs : List WSEvent)
    (h : WSEvent.onopen ∉ evs) :
    wsScheduledCount w evs ≤ w.maxReconnectAttempts ∧
    (w.maxReconnectAttempts ≤ w.reconnectAttempts → wsScheduledCount w evs = 0) ∧
    ProductionWebSocket.init.maxReconnectAttempts = 5 := by
  have hle := wsScheduledCount_le_sub evs w h
  refine ⟨le_trans hle (Nat.sub_le _ _), fun hmax => ?_, rfl⟩
  exact Nat.le_zero.mp (le_trans hle (le_of_eq (Nat.sub_eq_zero_of_le hmax)))

/-- Witness for C9: seven consecutive losses on a fresh adapter schedule
exactly 5 reconnects, hence at most the bound; an exhausted adapter schedules
none. -/
theorem push_adapter_bounded_reconnects_witness :
    wsScheduledCount ProductionWebSocket.init
      [.onclose, .onclose, .onclose, .onclose, .onclose, .onclose, .onclose] ≤ 5 ∧
    wsScheduledCount ⟨3000, 5, 5⟩ [.onclose, .onclose] = 0 := by
  have h1 := push_adapter_bounded_reconnects ProductionWebSocket.init
    [.onclose, .onclose, .onclose, .onclose, .onclose, .onclose, .onclose] (by decide)
  have h2 := push_adapter_bounded_reconnects ⟨3000, 5, 5⟩ [.onclose, .onclose] (by decide)
  exact ⟨h1.1, h2.2.1 le_rfl⟩

/-!
## C4 — the step-2 fluctuation gate

The claim says the gate reads the machine's *current* status after any
step-1 change. The loop body instead tests `machine.status` on the snapshot
object captured before the tick, so a machine whose status becomes `active`
in step 1 of the same tick is NOT perturbed.
-/

def idleStore : StoreState :=
  { machines := [⟨"m1", "M", .idle, 50, (0, 0, 0), none, none⟩],
    connections := [], selectedMachineId := none }

/-- Counterexample for C4 as stated: with draws `roll1 = 0 < 0.1`,
`roll2 = 0.5` (drawing `active`) and `roll3 = 0.85` (a delta of +7), the idle
machine `m1` becomes active in step 1 of the tick, yet its throughput stays
50 instead of being perturbed to `max 0 (50 + 7) = 57`. -/
theorem step2_gate_misses_newly_active_machine :
    generateRandomStatus (0.5 : ℚ) = MachineStatus.active ∧
    fluctDelta defaultConfig (0.85 : ℚ) = 7 ∧
    (simulateStep defaultConfig (fun _ => ⟨0, 0.5, 0.85⟩) idleStore).machines =
      [⟨"m1", "M", .active, 50, (0, 0, 0), none, none⟩] ∧
    (50 : ℚ) ≠ max 0 (50 + 7) := by decide

/-- C4 amended: in a tick, a machine is perturbed by the clamped random
delta exactly when its status on the pre-tick snapshot is `active` and step 1
either does not fire or draws `active`; a machine whose status becomes
`active` in step 1 of the same tick keeps its throughput unchanged (it is
first perturbed in a later tick). Stated on a single-machine store. -/
theorem step2_gate_reads_snapshot_status (cfg : SimulationConfig) (m : Machine)
    (inp : TickInput) (conns : List Connection) (sel : Option String) :
    ((inp.roll1 < (0.1 : ℚ)) → generateRandomStatus inp.roll2 = .active →
      m.status ≠ .active →
      (simulateStep cfg (fun _ => inp) ⟨[m], conns, sel⟩).machines =
        [{ m with status := .active }]) ∧
    (m.status = .active → ¬ (inp.roll1 < (0.1 : ℚ)) →
      (simulateStep cfg (fun _ => inp) ⟨[m], conns, sel⟩).machines =
        [{ m with throughput := max 0 (m.throughput + fluctDelta cfg inp.roll3) }]) ∧
    (m.status = .active → (inp.roll1 < (0.1 : ℚ)) →
      generateRandomStatus inp.roll2 = .active →
      (simulateStep cfg (fun _ => inp) ⟨[m], conns, sel⟩).machines =
        [{ m with
            status := .active
            throughput := max 0 (m.throughput + fluctDelta cfg inp.roll3) }]) := by
  refine ⟨?_, ?_, ?_⟩
  · intro hroll hgen hst
    simp [simulateStep, simTickFrom, simTickMachine, hroll, hgen, fluctuateActive, hst,
      updateMachineStatus, updateMachineThroughput]
  · intro hst hroll
    simp [simulateStep, simTickFrom, simTickMachine, hroll, fluctuateActive, hst,
      updateMachineStatus, updateMachineThroughput]
  · intro hst hroll hgen
    simp [simulateStep, simTickFrom, simTickMachine, hroll, hgen, fluctuateActive, hst,
      updateMachineStatus, updateMachineThroughput]

/-- Witness for C4 amended: an active machine with no step-1 fire is
perturbed by +7; the idle machine drawn active is left at its old
throughput. -/
theorem step2_gate_reads_snapshot_status_witness :
    (simulateStep defaultConfig (fun _ => ⟨0.5, 0, 0.85⟩)
      { machines := [⟨"m1", "M", .active, 50, (0, 0, 0), none, none⟩],
        connections := [], selectedMachineId := none }).machines =
      [⟨"m1", "M", .active, 57, (0, 0, 0), none, none⟩] ∧
    (simulateStep defaultConfig (fun _ => ⟨0, 0.5, 0.85⟩) idleStore).machines =
      [⟨"m1", "M", .active, 50, (0, 0, 0), none, none⟩] := by
  have h1 := (step2_gate_reads_snapshot_status defaultConfig
    ⟨"m1", "M", .active, 50, (0, 0, 0), none, none⟩ ⟨0.5, 0, 0.85⟩ [] none).2.1
    rfl (by decide)
  have h2 := (step2_gate_reads_snapshot_status defaultConfig
    ⟨"m1", "M", .idle, 50, (0, 0, 0), none, none⟩ ⟨0, 0.5, 0.85⟩ [] none).1
    (by decide) (by decide) (by decide)
  constructor
  · rw [h1]
    decide
  · exact h2
